import Mathlib

/-!
Verification of `langdspy/prompt_strategies.py`: a shallow embedding of the
prompt-construction and output-parsing layer (signatures, the three
format-specific renderers and parsers, and the render/parse dispatchers),
together with theorems settling the specification's claims about it.

Python dictionaries are embedded as insertion-ordered association lists with
unique keys; Python values that flow through the layer are embedded as
`Value`; fallible Python code returns `Except`.  The field-descriptor
objects (`InputField` / `OutputField` / `HintField` from
`field_descriptors.py`) are external collaborators: each is embedded as a
record of its display name, description and its self-formatting /
validation / transformation functions, which the claims quantify over.
-/

/-- A Python value as it flows through this layer (example inputs, parsed
outputs, transformed field values).  Only scalar shapes are needed here;
dict-shaped example outputs are distinguished by `ExOut`. -/
inductive Value where
  | vnone : Value
  | vstr : String → Value
  | vint : Int → Value
  | vbool : Bool → Value
deriving DecidableEq

/-- An example's output: either a scalar value or a dict
(`isinstance(example_output, dict)` in the source). -/
inductive ExOut where
  | scalar : Value → ExOut
  | table : List (String × Value) → ExOut
deriving DecidableEq

/-- Embedding of one field-descriptor object (external collaborator from
`field_descriptors.py`): display name, description, the `optional` kwarg,
and its self-formatting, validation and transformation methods. -/
structure FieldDesc where
  name : String
  desc : String
  optional : Bool
  validate_value : Value → Bool
  transform_value : Value → Value
  format_prompt_description : String → String
  format_prompt_value : Value → String → String
  format_prompt_value_json : Value → String → List (String × Value)
  format_prompt : String → String
  format_prompt_json : String → List (String × Value)

/-- A worked example: an input-values dict paired with a scalar-or-dict
output (`self.__examples__` / `trained_state.examples` entries). -/
abbrev ExamplePair := List (String × Value) × ExOut

/-- The Trained State collaborator: an object carrying learned examples. -/
structure TrainedState where
  examples : List ExamplePair

/-- `PromptSignature` after `__init__`: the three insertion-ordered
role mappings (name → field descriptor). -/
structure Signature where
  input_variables : List (String × FieldDesc)
  output_variables : List (String × FieldDesc)
  hint_variables : List (String × FieldDesc)

/-- First-match association-list lookup, the embedding of `d[k]` / `k in d`
on a Python dict. -/
def dlookup {α : Type} : List (String × α) → String → Option α
  | [], _ => none
  | p :: rest, k => if p.1 == k then some p.2 else dlookup rest k

/-- `d.get(k)`: lookup defaulting to `None`. -/
def dget (d : List (String × Value)) (k : String) : Value :=
  (dlookup d k).getD Value.vnone

/-- Python dict assignment `d[k] = v`: replace in place if the key exists
(keys are unique in a dict, so the first hit is the only one), else append. -/
def dictInsert {α : Type} : List (String × α) → String → α → List (String × α)
  | [], k, v => [(k, v)]
  | p :: rest, k, v => if p.1 == k then (k, v) :: rest else p :: dictInsert rest k v

/-- Python `d.update(upd)`: assign every entry of `upd` in order. -/
def dictUpdate {α : Type} (d upd : List (String × α)) : List (String × α) :=
  upd.foldl (fun acc p => dictInsert acc p.1 p.2) d

/-! ### Signature construction (`PromptSignature.__init__`, lines 42-56) -/

/-- The declared kind of a field of a Signature subtype, read off the
declared attribute type (`InputField` / `OutputField` / `HintField`). -/
inductive FieldKind where
  | input : FieldKind
  | output : FieldKind
  | hint : FieldKind
deriving DecidableEq

/-- One declared field of a Signature subtype: its attribute name, its
declared kind, and the field-descriptor default value. -/
structure DeclField where
  name : String
  kind : FieldKind
  fd : FieldDesc

/-- `PromptSignature.__init__`: a single pass over the subtype's declared
fields buckets each into the role mapping matching its declared kind,
preserving declaration order (the `if issubclass .. elif ..` chain). -/
def mkSignature (decls : List DeclField) : Signature :=
  { input_variables := (decls.filter (fun d => d.kind == FieldKind.input)).map (fun d => (d.name, d.fd))
    output_variables := (decls.filter (fun d => d.kind == FieldKind.output)).map (fun d => (d.name, d.fd))
    hint_variables := (decls.filter (fun d => d.kind == FieldKind.hint)).map (fun d => (d.name, d.fd)) }

/-! ### Example validation (`PromptSignature.validate_examples`, lines 78-92) -/

/-- The errors `validate_examples` can raise. -/
inductive SigError where
  | exampleInputNotFound : String → SigError
  | exampleOutputNotFound : String → SigError
  | exampleOutputNotDict : SigError
deriving DecidableEq

/-- The inner loop `for input_name in example_input`: the first example
input key that is not a declared input field name raises. -/
def checkExampleInputKeys (sig : Signature) : List String → Except SigError Unit
  | [] => Except.ok ()
  | k :: ks =>
      if (sig.input_variables.map Prod.fst).contains k then checkExampleInputKeys sig ks
      else Except.error (SigError.exampleInputNotFound k)

/-- The inner loop `for output_name in example_output` of the dict branch. -/
def checkExampleOutputKeys (sig : Signature) : List String → Except SigError Unit
  | [] => Except.ok ()
  | k :: ks =>
      if (sig.output_variables.map Prod.fst).contains k then checkExampleOutputKeys sig ks
      else Except.error (SigError.exampleOutputNotFound k)

/-- The output check of one example: dict outputs have every key checked;
a non-dict output requires `len(self.output_variables) == 1`. -/
def checkExampleOutput (sig : Signature) : ExOut → Except SigError Unit
  | ExOut.table d => checkExampleOutputKeys sig (d.map Prod.fst)
  | ExOut.scalar _ =>
      if sig.output_variables.length != 1 then Except.error SigError.exampleOutputNotDict
      else Except.ok ()

/-- `validate_examples`: every example's input keys are checked, then its
output; the first violation raises. -/
def validate_examples (sig : Signature) : List ExamplePair → Except SigError Unit
  | [] => Except.ok ()
  | ex :: rest =>
      match checkExampleInputKeys sig (ex.1.map Prod.fst) with
      | Except.error e => Except.error e
      | Except.ok _ =>
          match checkExampleOutput sig ex.2 with
          | Except.error e => Except.error e
          | Except.ok _ => validate_examples sig rest

/-! ### Input validation (`PromptSignature._validate_input`, lines 60-76) -/

/-- The loop `for name, field in self.input_variables.items()`: a missing
non-optional input raises, a missing optional one maps to `None`, a present
value must pass the field's validator and is stored transformed. -/
def validateInputVars (input_dict : List (String × Value)) :
    List (String × FieldDesc) → Except String (List (String × Value))
  | [] => Except.ok []
  | (n, f) :: rest =>
      match dlookup input_dict n with
      | none =>
          if f.optional then
            match validateInputVars input_dict rest with
            | Except.ok r => Except.ok ((n, Value.vnone) :: r)
            | Except.error e => Except.error e
          else Except.error ("Missing required input: " ++ n)
      | some v =>
          if f.validate_value v then
            match validateInputVars input_dict rest with
            | Except.ok r => Except.ok ((n, f.transform_value v) :: r)
            | Except.error e => Except.error e
          else Except.error ("Invalid input for " ++ n)

/-- `_validate_input`: with no declared input fields the caller's dict is
returned as-is; otherwise the per-field loop builds the validated dict. -/
def validate_input (sig : Signature) (input_dict : List (String × Value)) :
    Except String (List (String × Value)) :=
  if sig.input_variables.isEmpty then Except.ok input_dict
  else validateInputVars input_dict sig.input_variables

/-! ### Helper lemmas for association lists -/

theorem dlookup_dictInsert_ne {α : Type} (d : List (String × α)) (k n : String) (v : α)
    (h : k ≠ n) : dlookup (dictInsert d k v) n = dlookup d n := by
  induction d with
  | nil => simp [dictInsert, dlookup, h]
  | cons p rest ih =>
      by_cases hp : p.1 = k
      · simp [dictInsert, hp, dlookup, h]
      · simp only [dictInsert, beq_iff_eq, hp, if_false]
        by_cases hn : p.1 = n
        · simp [dlookup, hn]
        · simp [dlookup, hn, ih]

theorem dlookup_dictInsert_self {α : Type} (d : List (String × α)) (k : String) (v : α) :
    dlookup (dictInsert d k v) k = some v := by
  induction d with
  | nil => simp [dictInsert, dlookup]
  | cons p rest ih =>
      by_cases hp : p.1 = k
      · simp [dictInsert, hp, dlookup]
      · simp [dictInsert, hp, dlookup, ih]

/-! ### C9: the role partition -/

theorem mem_mkSignature_role (decls : List DeclField) (k : FieldKind) (n : String) :
    n ∈ ((decls.filter (fun d => d.kind == k)).map (fun d => (d.name, d.fd))).map Prod.fst ↔
      ∃ d ∈ decls, d.kind = k ∧ d.name = n := by
  simp only [List.map_map, List.mem_map, List.mem_filter, Function.comp, beq_iff_eq]
  constructor
  · rintro ⟨d, ⟨hd, hk⟩, hn⟩
    exact ⟨d, hd, hk, hn⟩
  · rintro ⟨d, hd, hk, hn⟩
    exact ⟨d, ⟨hd, hk⟩, hn⟩

/-- C9: for every constructed Signature, the union of the keys of the
input, output and hint role mappings equals the full declared field set of
the Signature subtype, and the three mappings are pairwise disjoint. -/
theorem signature_partition (decls : List DeclField)
    (h : (decls.map DeclField.name).Nodup) :
    (∀ n, (n ∈ (mkSignature decls).input_variables.map Prod.fst ∨
           n ∈ (mkSignature decls).output_variables.map Prod.fst ∨
           n ∈ (mkSignature decls).hint_variables.map Prod.fst) ↔
          n ∈ decls.map DeclField.name) ∧
    (∀ n, ¬ (n ∈ (mkSignature decls).input_variables.map Prod.fst ∧
             n ∈ (mkSignature decls).output_variables.map Prod.fst)) ∧
    (∀ n, ¬ (n ∈ (mkSignature decls).input_variables.map Prod.fst ∧
             n ∈ (mkSignature decls).hint_variables.map Prod.fst)) ∧
    (∀ n, ¬ (n ∈ (mkSignature decls).output_variables.map Prod.fst ∧
             n ∈ (mkSignature decls).hint_variables.map Prod.fst)) := by
  have hdisj : ∀ k₁ k₂ : FieldKind, k₁ ≠ k₂ → ∀ n,
      ¬ (n ∈ ((decls.filter (fun d => d.kind == k₁)).map (fun d => (d.name, d.fd))).map Prod.fst ∧
         n ∈ ((decls.filter (fun d => d.kind == k₂)).map (fun d => (d.name, d.fd))).map Prod.fst) := by
    intro k₁ k₂ hk n ⟨h₁, h₂⟩
    rw [mem_mkSignature_role] at h₁ h₂
    obtain ⟨d₁, hd₁, hk₁, hn₁⟩ := h₁
    obtain ⟨d₂, hd₂, hk₂, hn₂⟩ := h₂
    have : d₁ = d₂ := List.inj_on_of_nodup_map h hd₁ hd₂ (hn₁.trans hn₂.symm)
    exact hk (by rw [← hk₁, this, hk₂])
  refine ⟨?_, hdisj FieldKind.input FieldKind.output (by simp) ,
          hdisj FieldKind.input FieldKind.hint (by simp),
          hdisj FieldKind.output FieldKind.hint (by simp)⟩
  intro n
  simp only [mkSignature]
  rw [mem_mkSignature_role, mem_mkSignature_role, mem_mkSignature_role]
  constructor
  · rintro (⟨d, hd, _, hn⟩ | ⟨d, hd, _, hn⟩ | ⟨d, hd, _, hn⟩) <;>
      exact List.mem_map.mpr ⟨d, hd, hn⟩
  · intro hn
    obtain ⟨d, hd, hn⟩ := List.mem_map.mp hn
    cases hk : d.kind
    · exact Or.inl ⟨d, hd, hk, hn⟩
    · exact Or.inr (Or.inl ⟨d, hd, hk, hn⟩)
    · exact Or.inr (Or.inr ⟨d, hd, hk, hn⟩)

/-- A concrete field descriptor used by the witnesses: accepts and passes
values through unchanged and renders via its name. -/
def plainFd (n : String) : FieldDesc :=
  { name := n, desc := n, optional := false,
    validate_value := fun _ => true, transform_value := fun v => v,
    format_prompt_description := fun _ => n,
    format_prompt_value := fun _ _ => n,
    format_prompt_value_json := fun _ _ => [(n, Value.vnone)],
    format_prompt := fun _ => n,
    format_prompt_json := fun _ => [(n, Value.vnone)] }

/-- Declared fields of a small concrete Signature subtype. -/
def wDecls : List DeclField :=
  [{ name := "question", kind := FieldKind.input, fd := plainFd "question" },
   { name := "answer", kind := FieldKind.output, fd := plainFd "answer" },
   { name := "style", kind := FieldKind.hint, fd := plainFd "style" }]

/-- Witness for `signature_partition` at a concrete Signature subtype. -/
theorem signature_partition_witness :
    (("question" ∈ (mkSignature wDecls).input_variables.map Prod.fst ∨
      "question" ∈ (mkSignature wDecls).output_variables.map Prod.fst ∨
      "question" ∈ (mkSignature wDecls).hint_variables.map Prod.fst) ↔
     "question" ∈ wDecls.map DeclField.name) ∧
    ¬ ("answer" ∈ (mkSignature wDecls).input_variables.map Prod.fst ∧
       "answer" ∈ (mkSignature wDecls).output_variables.map Prod.fst) :=
  ⟨(signature_partition wDecls (by decide)).1 "question",
   (signature_partition wDecls (by decide)).2.1 "answer"⟩

/-! ### C8: example validation -/

theorem checkExampleInputKeys_ok_iff (sig : Signature) (ks : List String) :
    checkExampleInputKeys sig ks = Except.ok () ↔
      ∀ k ∈ ks, k ∈ sig.input_variables.map Prod.fst := by
  induction ks with
  | nil => simp [checkExampleInputKeys]
  | cons k ks ih =>
      by_cases hk : k ∈ sig.input_variables.map Prod.fst
      · have hc : (sig.input_variables.map Prod.fst).contains k = true := List.elem_iff.mpr hk
        rw [checkExampleInputKeys, if_pos hc, ih]
        constructor
        · intro h k' hk'
          rcases List.mem_cons.mp hk' with h' | h'
          · exact h' ▸ hk
          · exact h k' h'
        · intro h k' hk'
          exact h k' (List.mem_cons_of_mem _ hk')
      · have hc : ¬ ((sig.input_variables.map Prod.fst).contains k = true) := by
          intro hc
          exact hk (List.elem_iff.mp hc)
        rw [checkExampleInputKeys, if_neg hc]
        constructor
        · intro h
          cases h
        · intro h
          exact absurd (h k (List.mem_cons_self k ks)) hk

theorem checkExampleOutputKeys_ok_iff (sig : Signature) (ks : List String) :
    checkExampleOutputKeys sig ks = Except.ok () ↔
      ∀ k ∈ ks, k ∈ sig.output_variables.map Prod.fst := by
  induction ks with
  | nil => simp [checkExampleOutputKeys]
  | cons k ks ih =>
      by_cases hk : k ∈ sig.output_variables.map Prod.fst
      · have hc : (sig.output_variables.map Prod.fst).contains k = true := List.elem_iff.mpr hk
        rw [checkExampleOutputKeys, if_pos hc, ih]
        constructor
        · intro h k' hk'
          rcases List.mem_cons.mp hk' with h' | h'
          · exact h' ▸ hk
          · exact h k' h'
        · intro h k' hk'
          exact h k' (List.mem_cons_of_mem _ hk')
      · have hc : ¬ ((sig.output_variables.map Prod.fst).contains k = true) := by
          intro hc
          exact hk (List.elem_iff.mp hc)
        rw [checkExampleOutputKeys, if_neg hc]
        constructor
        · intro h
          cases h
        · intro h
          exact absurd (h k (List.mem_cons_self k ks)) hk

theorem checkExampleOutput_ok_iff (sig : Signature) (out : ExOut) :
    checkExampleOutput sig out = Except.ok () ↔
      ((∀ d, out = ExOut.table d → ∀ k ∈ d.map Prod.fst, k ∈ sig.output_variables.map Prod.fst) ∧
       (∀ v, out = ExOut.scalar v → sig.output_variables.length = 1)) := by
  cases out with
  | table d =>
      rw [show checkExampleOutput sig (ExOut.table d) = checkExampleOutputKeys sig (d.map Prod.fst) from rfl,
          checkExampleOutputKeys_ok_iff]
      constructor
      · intro h
        refine ⟨?_, ?_⟩
        · intro d' hd'
          cases hd'
          exact h
        · intro v hv
          cases hv
      · intro h
        exact h.1 d rfl
  | scalar v =>
      rw [show checkExampleOutput sig (ExOut.scalar v) =
            (if sig.output_variables.length != 1 then Except.error SigError.exampleOutputNotDict
             else Except.ok ()) from rfl]
      by_cases hl : sig.output_variables.length = 1
      · rw [if_neg (by simp [hl])]
        constructor
        · intro _
          refine ⟨?_, ?_⟩
          · intro d hd
            cases hd
          · intro v' _
            exact hl
        · intro _
          rfl
      · rw [if_pos (by simp [bne_iff_ne, hl])]
        constructor
        · intro h
          cases h
        · intro h
          exact absurd (h.2 v rfl) hl

/-- C8 (amended): `validate_examples` succeeds exactly when every example
has only declared input keys, every dict-shaped output has only declared
output keys, and every scalar output comes with exactly one declared output
field (the source raises whenever `len(output_variables) != 1`, so also for
zero output fields, not only for more than one). -/
theorem validate_examples_ok_iff (sig : Signature) (examples : List ExamplePair) :
    validate_examples sig examples = Except.ok () ↔
      ∀ ex ∈ examples,
        (∀ k ∈ ex.1.map Prod.fst, k ∈ sig.input_variables.map Prod.fst) ∧
        (∀ d, ex.2 = ExOut.table d → ∀ k ∈ d.map Prod.fst, k ∈ sig.output_variables.map Prod.fst) ∧
        (∀ v, ex.2 = ExOut.scalar v → sig.output_variables.length = 1) := by
  induction examples with
  | nil => simp [validate_examples]
  | cons ex rest ih =>
      constructor
      · intro h
        intro e he
        rcases List.mem_cons.mp he with he | he
        · subst he
          cases hin : checkExampleInputKeys sig (e.1.map Prod.fst) with
          | error err => rw [validate_examples, hin] at h; cases h
          | ok u =>
              cases u
              cases hout : checkExampleOutput sig e.2 with
              | error err => rw [validate_examples, hin, hout] at h; cases h
              | ok u =>
                  cases u
                  have h1 := (checkExampleInputKeys_ok_iff sig _).mp hin
                  have h2 := (checkExampleOutput_ok_iff sig _).mp hout
                  exact ⟨h1, h2.1, h2.2⟩
        · cases hin : checkExampleInputKeys sig (ex.1.map Prod.fst) with
          | error err => rw [validate_examples, hin] at h; cases h
          | ok u =>
              cases u
              cases hout : checkExampleOutput sig ex.2 with
              | error err => rw [validate_examples, hin, hout] at h; cases h
              | ok u =>
                  cases u
                  rw [validate_examples, hin, hout] at h
                  exact ih.mp h e he
      · intro h
        have hex := h ex (List.mem_cons_self ex rest)
        have hin : checkExampleInputKeys sig (ex.1.map Prod.fst) = Except.ok () :=
          (checkExampleInputKeys_ok_iff sig _).mpr hex.1
        have hout : checkExampleOutput sig ex.2 = Except.ok () :=
          (checkExampleOutput_ok_iff sig _).mpr ⟨hex.2.1, hex.2.2⟩
        rw [validate_examples, hin, hout]
        exact ih.mpr (fun e he => h e (List.mem_cons_of_mem ex he))

/-- A Signature with no declared fields at all. -/
def sigEmpty : Signature :=
  { input_variables := [], output_variables := [], hint_variables := [] }

/-- The example list refuting C8 as stated: one example with an empty input
dict and a scalar output, against a Signature declaring zero output fields. -/
def cexExamples : List ExamplePair := [([], ExOut.scalar (Value.vstr "x"))]

/-- C8 counterexample: with zero declared output fields and a scalar example
output, `validate_examples` fails although none of the claim's three failure
conditions holds (in particular more than one output field is NOT declared),
so validation does not fail *exactly* when the claim says. -/
theorem validate_examples_scalar_zero_cex :
    validate_examples sigEmpty cexExamples = Except.error SigError.exampleOutputNotDict ∧
    ¬ (∃ ex ∈ cexExamples,
        (∃ k ∈ ex.1.map Prod.fst, k ∉ sigEmpty.input_variables.map Prod.fst) ∨
        (∃ d, ex.2 = ExOut.table d ∧ ∃ k ∈ d.map Prod.fst, k ∉ sigEmpty.output_variables.map Prod.fst) ∨
        ((∃ v, ex.2 = ExOut.scalar v) ∧ 1 < sigEmpty.output_variables.length)) := by
  constructor
  · rfl
  · rintro ⟨ex, hex, hbad⟩
    have : ex = (([] : List (String × Value)), ExOut.scalar (Value.vstr "x")) := by
      simpa [cexExamples] using hex
    subst this
    rcases hbad with ⟨k, hk, _⟩ | ⟨d, hd, _⟩ | ⟨_, hlt⟩
    · simp at hk
    · cases hd
    · simp [sigEmpty] at hlt

/-! ### C10: the key-set postcondition of `_validate_input` -/

theorem validateInputVars_keys (input_dict : List (String × Value))
    (vars : List (String × FieldDesc)) (d : List (String × Value))
    (h : validateInputVars input_dict vars = Except.ok d) :
    d.map Prod.fst = vars.map Prod.fst := by
  induction vars generalizing d with
  | nil =>
      rw [validateInputVars] at h
      cases h
      rfl
  | cons p rest ih =>
      obtain ⟨n, f⟩ := p
      rw [validateInputVars] at h
      cases hl : dlookup input_dict n with
      | none =>
          simp only [hl] at h
          by_cases hopt : f.optional
          · rw [if_pos hopt] at h
            cases hr : validateInputVars input_dict rest with
            | ok r =>
                rw [hr] at h
                cases h
                simpa using ih r hr
            | error e =>
                rw [hr] at h
                cases h
          · rw [if_neg hopt] at h
            cases h
      | some v =>
          simp only [hl] at h
          by_cases hval : f.validate_value v
          · rw [if_pos hval] at h
            cases hr : validateInputVars input_dict rest with
            | ok r =>
                rw [hr] at h
                cases h
                simpa using ih r hr
            | error e =>
                rw [hr] at h
                cases h
          · rw [if_neg hval] at h
            cases h

/-- C10: with no declared input fields `_validate_input` returns the
caller's dict unchanged (undeclared keys included); with at least one
declared input field, any dict it returns has exactly the declared input
field names as keys, so undeclared caller keys are silently dropped. -/
theorem validate_input_postcondition (sig : Signature) (input_dict : List (String × Value)) :
    (sig.input_variables = [] → validate_input sig input_dict = Except.ok input_dict) ∧
    (∀ d, sig.input_variables ≠ [] → validate_input sig input_dict = Except.ok d →
       d.map Prod.fst = sig.input_variables.map Prod.fst) := by
  constructor
  · intro hempty
    rw [validate_input, if_pos (by simp [hempty])]
  · intro d hne h
    rw [validate_input, if_neg (by simpa using hne)] at h
    exact validateInputVars_keys input_dict sig.input_variables d h

/-- A Signature with a single required input field. -/
def wSigInput : Signature :=
  { input_variables := [("question", plainFd "question")], output_variables := [],
    hint_variables := [] }

/-- Witness for `validate_input_postcondition`: an undeclared key `junk` is
dropped and the returned keys are exactly the declared input names. -/
theorem validate_input_postcondition_witness :
    [("question", Value.vstr "v")].map Prod.fst = wSigInput.input_variables.map Prod.fst :=
  (validate_input_postcondition wSigInput
      [("question", Value.vstr "v"), ("junk", Value.vstr "j")]).2
    [("question", Value.vstr "v")] (by simp [wSigInput]) rfl

/-! ### Plain-text parsing (`_parse_openai_output_to_fields`, lines 398-426) -/

/-- The marker glyph `OUTPUT_TOKEN = "🔑"` the renderer puts before each
output field and the parser splits on. -/
def outputToken : Char := '🔑'

/-- Python `str.split(sep)` for a one-character separator: the list of
chunks between occurrences of the separator; always non-empty. -/
def pySplitChar (sep : Char) : List Char → List (List Char)
  | [] => [[]]
  | c :: rest =>
      match pySplitChar sep rest with
      | [] => [[]]
      | h :: t => if c == sep then [] :: h :: t else (c :: h) :: t

/-- `re.match(r'^([^:]+): (.*)', line, re.MULTILINE)` on one chunk: one or
more non-colon characters (so everything up to the chunk's first colon),
then the two characters `: `, then the rest of that line (`.` does not
cross a newline; `re.match` anchors at the start of the chunk). -/
def matchNameContent (line : List Char) : Option (String × String) :=
  let name := line.takeWhile (fun c => c != ':')
  match line.dropWhile (fun c => c != ':') with
  | ':' :: ' ' :: tail =>
      if name.isEmpty then none
      else some (name.asString, (tail.takeWhile (fun c => c != '\n')).asString)
  | _ => none

/-- `PromptStrategy._get_output_field`: the first declared output variable
whose descriptor's display name equals the matched name, if any. -/
def get_output_field (sig : Signature) (field_name : String) : Option String :=
  (sig.output_variables.find? (fun p => p.2.name == field_name)).map Prod.fst

/-- One parser loop iteration over a chunk: on a `name: content` match
whose name resolves to a declared output field, assign into the dict. -/
def parseOpenaiStep (sig : Signature) (acc : List (String × String)) (line : List Char) :
    List (String × String) :=
  match matchNameContent line with
  | some (fname, content) =>
      match get_output_field sig fname with
      | some oname => dictInsert acc oname content
      | none => acc
  | none => acc

/-- `_parse_openai_output_to_fields`: split the raw output on the marker
glyph, match each chunk against the `name: content` pattern, and for a
single declared output field fall back to the whole last chunk whenever the
first parsed value is falsy (absent or the empty string). -/
def parse_openai_output_to_fields (sig : Signature) (output : String) : List (String × String) :=
  let lines := pySplitChar outputToken output.toList
  let parsed := lines.foldl (parseOpenaiStep sig) []
  match sig.output_variables with
  | [(firstName, _)] =>
      match parsed.head? with
      | some p => if p.2 = "" then dictInsert parsed firstName (lines.getLast!).asString else parsed
      | none => dictInsert parsed firstName (lines.getLast!).asString
  | _ => parsed

/-- Whether a chunk matches the `name: content` pattern with this field's
display name (the claim's "chunk matched that field"). -/
def chunkMatchesField (f : FieldDesc) (line : List Char) : Bool :=
  match matchNameContent line with
  | some r => r.1 == f.name
  | none => false

theorem foldl_parseOpenaiStep_id (sig : Signature) (lines : List (List Char))
    (acc : List (String × String))
    (h : ∀ line ∈ lines, ∀ a, parseOpenaiStep sig a line = a) :
    lines.foldl (parseOpenaiStep sig) acc = acc := by
  induction lines generalizing acc with
  | nil => rfl
  | cons l ls ih =>
      rw [List.foldl_cons, h l (List.mem_cons_self l ls) acc]
      exact ih acc (fun line hl a => h line (List.mem_cons_of_mem l hl) a)

theorem foldl_parseOpenaiStep_lookup_none (sig : Signature) (n : String)
    (lines : List (List Char)) (acc : List (String × String))
    (h : ∀ line ∈ lines, ∀ fname content, matchNameContent line = some (fname, content) →
           get_output_field sig fname ≠ some n)
    (hacc : dlookup acc n = none) :
    dlookup (lines.foldl (parseOpenaiStep sig) acc) n = none := by
  induction lines generalizing acc with
  | nil => exact hacc
  | cons l ls ih =>
      rw [List.foldl_cons]
      refine ih _ (fun line hl => h line (List.mem_cons_of_mem l hl)) ?_
      cases hm : matchNameContent l with
      | none => simpa [parseOpenaiStep, hm] using hacc
      | some r =>
          obtain ⟨fname, content⟩ := r
          cases hg : get_output_field sig fname with
          | none => simpa [parseOpenaiStep, hm, hg] using hacc
          | some oname =>
              have hne : oname ≠ n := fun he =>
                h l (List.mem_cons_self l ls) fname content hm (he ▸ hg)
              simp only [parseOpenaiStep, hm, hg]
              rw [dlookup_dictInsert_ne _ _ _ _ hne]
              exact hacc

/-- C6: if exactly one output field is declared and no chunk of the
marker-split output matches that field via the `name: content` pattern,
the whole last chunk becomes that field's value; with more than one output
field declared, a field no chunk matches is absent from the result. -/
theorem parse_openai_resolution (sig : Signature) (output : String)
    (hkeys : (sig.output_variables.map Prod.fst).Nodup) :
    (∀ n f, sig.output_variables = [(n, f)] →
       (pySplitChar outputToken output.toList).all (fun l => !chunkMatchesField f l) = true →
       parse_openai_output_to_fields sig output =
         [(n, ((pySplitChar outputToken output.toList).getLast!).asString)]) ∧
    (1 < sig.output_variables.length →
       ∀ n f, (n, f) ∈ sig.output_variables →
         (pySplitChar outputToken output.toList).all (fun l => !chunkMatchesField f l) = true →
         dlookup (parse_openai_output_to_fields sig output) n = none) := by
  constructor
  · intro n f hsig hall
    have hid : ∀ line ∈ pySplitChar outputToken output.toList, ∀ a,
        parseOpenaiStep sig a line = a := by
      intro line hl a
      have hnm : chunkMatchesField f line = false := by
        have := List.all_eq_true.mp hall line hl
        simpa using this
      cases hm : matchNameContent line with
      | none => simp [parseOpenaiStep, hm]
      | some r =>
          obtain ⟨fname, content⟩ := r
          have hne : (fname == f.name) = false := by
            rw [chunkMatchesField, hm] at hnm
            exact hnm
          have hfind : get_output_field sig fname = none := by
            rw [get_output_field, hsig]
            have : (f.name == fname) = false := by
              rcases beq_eq_false_iff_ne.mp hne with h'
              exact beq_eq_false_iff_ne.mpr (Ne.symm h')
            simp [List.find?, this]
          simp [parseOpenaiStep, hm, hfind]
    have hfold : (pySplitChar outputToken output.toList).foldl (parseOpenaiStep sig) [] = [] :=
      foldl_parseOpenaiStep_id sig _ [] hid
    simp only [parse_openai_output_to_fields, hsig, hfold]
    rfl
  · intro hlen n f hmem hall
    have hres : ∀ line ∈ pySplitChar outputToken output.toList, ∀ fname content,
        matchNameContent line = some (fname, content) → get_output_field sig fname ≠ some n := by
      intro line hl fname content hm hg
      obtain ⟨p, hfind, hp1⟩ := Option.map_eq_some'.mp hg
      have hpmem : p ∈ sig.output_variables := List.mem_of_find?_eq_some hfind
      have hpname : p.2.name = fname := by
        have := List.find?_some hfind
        simpa using this
      have hpeq : p = (n, f) := by
        apply List.inj_on_of_nodup_map hkeys hpmem hmem
        simpa using hp1
      have : chunkMatchesField f line = true := by
        rw [chunkMatchesField, hm]
        have : fname = f.name := by rw [← hpname, hpeq]
        simp [this]
      have hfalse := List.all_eq_true.mp hall line hl
      simp [this] at hfalse
    have hnone : dlookup ((pySplitChar outputToken output.toList).foldl (parseOpenaiStep sig) []) n = none :=
      foldl_parseOpenaiStep_lookup_none sig n _ [] hres rfl
    rcases hsv : sig.output_variables with _ | ⟨x, tail⟩
    · rw [hsv] at hlen
      simp at hlen
    · rcases tail with _ | ⟨y, rest⟩
      · rw [hsv] at hlen
        simp at hlen
      · obtain ⟨x1, x2⟩ := x
        simp only [parse_openai_output_to_fields, hsv]
        exact hnone

/-- A Signature with a single declared output field `answer`. -/
def sigAns : Signature :=
  { input_variables := [], output_variables := [("answer", plainFd "answer")],
    hint_variables := [] }

/-- Witness for `parse_openai_resolution`: a raw output with no marker and
no `name: content` chunk is returned whole as the single field's value. -/
theorem parse_openai_resolution_witness :
    parse_openai_output_to_fields sigAns "hello world" = [("answer", "hello world")] := by
  have h := (parse_openai_resolution sigAns "hello world" (by decide)).1
    "answer" (plainFd "answer") rfl (by decide)
  rw [h]
  decide

/-! ### Tagged-markup parsing (`_parse_anthropic_output_to_fields`, lines 433-449) -/

/-- Whether `pat` is a leading segment of `s`. -/
def listStarts : List Char → List Char → Bool
  | [], _ => true
  | _ :: _, [] => false
  | p :: ps, c :: cs => p == c && listStarts ps cs

/-- First occurrence of `pat` in `s`: the text before it and the text after
it, if `pat` occurs at all. -/
def findSub (pat : List Char) : List Char → Option (List Char × List Char)
  | [] => none
  | c :: rest =>
      if listStarts pat (c :: rest) then some ([], (c :: rest).drop pat.length)
      else
        match findSub pat rest with
        | some (pre, post) => some (c :: pre, post)
        | none => none

theorem findSub_post_lt (pat : List Char) (s pre post : List Char)
    (hne : pat ≠ []) (h : findSub pat s = some (pre, post)) :
    post.length < s.length := by
  induction s generalizing pre with
  | nil => cases h
  | cons c rest ih =>
      rw [findSub] at h
      by_cases hs : listStarts pat (c :: rest) = true
      · rw [if_pos hs] at h
        cases h
        have hp : 1 ≤ pat.length := by
          cases pat with
          | nil => exact absurd rfl hne
          | cons a l => simp
        simp only [List.length_drop, List.length_cons]
        omega
      · rw [if_neg hs] at h
        cases hr : findSub pat rest with
        | none => rw [hr] at h; cases h
        | some q =>
            obtain ⟨pre', post'⟩ := q
            rw [hr] at h
            cases h
            have := ih pre' hr
            simp only [List.length_cons]
            omega

/-- The scan loop of `re.findall(fr"<name>(.*?)</name>", output, re.DOTALL)`
for this pattern: find the next opening tag, then the nearest closing tag
after it (the lazy `.*?` takes the shortest span, and `re.DOTALL` lets it
cross newlines), record the span between, and continue after the closing
tag.  Each round consumes at least the opening tag, so remaining length
strictly decreases and the fuel `s.length + 1` is never exhausted. -/
def findallTagGo (openT closeT : List Char) : Nat → List Char → List (List Char)
  | 0, _ => []
  | fuel + 1, s =>
      match findSub openT s with
      | none => []
      | some (_, afterOpen) =>
          match findSub closeT afterOpen with
          | none => []
          | some (content, rest) => content :: findallTagGo openT closeT fuel rest

/-- All captures of `<tag>(.*?)</tag>` over `s`, in scan order (the tag text
is taken literally, as it is for the alphanumeric field names this layer
interpolates into the pattern). -/
def findallTag (tag : String) (s : List Char) : List (List Char) :=
  findallTagGo ('<' :: (tag.toList ++ ['>'])) ('<' :: '/' :: (tag.toList ++ ['>']))
    (s.length + 1) s

/-- The characters Python `str.strip()` removes from both ends. -/
def isPySpace (c : Char) : Bool :=
  c == ' ' || c == '\t' || c == '\n' || c == '\r' || c == Char.ofNat 11 || c == Char.ofNat 12

/-- Python `str.strip()`. -/
def pyStrip (s : List Char) : List Char :=
  ((s.dropWhile isPySpace).reverse.dropWhile isPySpace).reverse

/-- The parser's argument: a plain string, or an object exposing a
`.content` attribute (an `AIMessage`), which `hasattr(output, 'content')`
unwraps first. -/
inductive RawOutput where
  | plain : String → RawOutput
  | withContent : String → RawOutput

/-- The string the parser actually scans after the `.content` unwrap. -/
def rawText : RawOutput → String
  | RawOutput.plain s => s
  | RawOutput.withContent c => c

/-- The loop `for output_name, output_field in self.output_variables.items()`:
bind a field to the stripped last tag match when one exists, else skip it
(output variable names are dict keys, hence unique, so the loop's dict
assignments append in iteration order). -/
def parseAnthropicVars (s : List Char) : List (String × FieldDesc) → List (String × String)
  | [] => []
  | (n, f) :: rest =>
      match (findallTag f.name s).getLast? with
      | some m => (n, (pyStrip m).asString) :: parseAnthropicVars s rest
      | none => parseAnthropicVars s rest

/-- `_parse_anthropic_output_to_fields`. -/
def parse_anthropic_output_to_fields (sig : Signature) (output : RawOutput) :
    List (String × String) :=
  parseAnthropicVars (rawText output).toList sig.output_variables

theorem parseAnthropicVars_lookup_none (s : List Char) (vars : List (String × FieldDesc))
    (n : String) (hn : n ∉ vars.map Prod.fst) :
    dlookup (parseAnthropicVars s vars) n = none := by
  induction vars with
  | nil => rfl
  | cons p rest ih =>
      obtain ⟨n', f'⟩ := p
      have hne : ¬ (n' = n) := by
        intro he
        exact hn (by simp [he])
      have hrest : n ∉ rest.map Prod.fst := fun hm => hn (by simp [hm])
      cases hm : (findallTag f'.name s).getLast? with
      | some m =>
          simp only [parseAnthropicVars, hm]
          rw [dlookup]
          rw [if_neg (by simpa using hne)]
          exact ih hrest
      | none =>
          simp only [parseAnthropicVars, hm]
          exact ih hrest

theorem parseAnthropicVars_lookup (s : List Char) (vars : List (String × FieldDesc))
    (hk : (vars.map Prod.fst).Nodup) (n : String) (f : FieldDesc)
    (hmem : (n, f) ∈ vars) :
    dlookup (parseAnthropicVars s vars) n =
      ((findallTag f.name s).getLast?).map (fun m => (pyStrip m).asString) := by
  induction vars with
  | nil => cases hmem
  | cons p rest ih =>
      obtain ⟨n', f'⟩ := p
      rcases List.mem_cons.mp hmem with hh | ht
      · obtain ⟨h1, h2⟩ := Prod.mk.inj hh
        subst h1
        subst h2
        cases hm : (findallTag f.name s).getLast? with
        | some m =>
            simp [parseAnthropicVars, hm, dlookup]
        | none =>
            simp only [parseAnthropicVars, hm, Option.map_none']
            exact parseAnthropicVars_lookup_none s rest n
              (by simpa using (List.nodup_cons.mp hk).1)
      · have hne : ¬ (n' = n) := by
          intro he
          subst he
          exact (List.nodup_cons.mp hk).1 (by simpa using List.mem_map_of_mem Prod.fst ht)
        have hrest := ih (List.nodup_cons.mp hk).2 ht
        cases hm : (findallTag f'.name s).getLast? with
        | some m =>
            simp only [parseAnthropicVars, hm]
            rw [dlookup, if_neg (by simpa using hne)]
            exact hrest
        | none =>
            simp only [parseAnthropicVars, hm]
            exact hrest

/-- C5: for every raw output (plain string or `.content`-bearing object)
and declared output field, tagged-markup parsing binds the field to the
whitespace-stripped content of the LAST lazy `<name>...</name>` match when
one exists, and omits the field's key entirely when none exists. -/
theorem parse_anthropic_fields (sig : Signature) (output : RawOutput)
    (hk : (sig.output_variables.map Prod.fst).Nodup) :
    ∀ n f, (n, f) ∈ sig.output_variables →
      (findallTag f.name (rawText output).toList = [] →
         dlookup (parse_anthropic_output_to_fields sig output) n = none) ∧
      (∀ m, (findallTag f.name (rawText output).toList).getLast? = some m →
         dlookup (parse_anthropic_output_to_fields sig output) n =
           some (pyStrip m).asString) := by
  intro n f hmem
  have h := parseAnthropicVars_lookup (rawText output).toList sig.output_variables hk n f hmem
  constructor
  · intro hempty
    rw [parse_anthropic_output_to_fields, h, hempty]
    rfl
  · intro m hlast
    rw [parse_anthropic_output_to_fields, h, hlast]
    rfl

/-- The Signature of the spec's tagged-markup round trip: output fields
`summary` and `score`. -/
def sigTagged : Signature :=
  { input_variables := [],
    output_variables := [("summary", plainFd "summary"), ("score", plainFd "score")],
    hint_variables := [] }

/-- Witness for `parse_anthropic_fields`: parsing
`<summary>ok</summary><score>5</score>` (delivered behind a `.content`
attribute) yields `summary = "ok"` and `score = "5"`. -/
theorem parse_anthropic_fields_witness :
    dlookup (parse_anthropic_output_to_fields sigTagged
        (RawOutput.withContent "<summary>ok</summary><score>5</score>")) "summary" = some "ok" ∧
    dlookup (parse_anthropic_output_to_fields sigTagged
        (RawOutput.withContent "<summary>ok</summary><score>5</score>")) "score" = some "5" := by
  constructor
  · have h := (parse_anthropic_fields sigTagged
        (RawOutput.withContent "<summary>ok</summary><score>5</score>") (by decide)
        "summary" (plainFd "summary") (List.Mem.head _)).2 ("ok".toList) (by decide)
    rw [h]
    decide
  · have h := (parse_anthropic_fields sigTagged
        (RawOutput.withContent "<summary>ok</summary><score>5</score>") (by decide)
        "score" (plainFd "score") (List.Mem.tail _ (List.Mem.head _))).2 ("5".toList) (by decide)
    rw [h]
    decide

/-! ### JSON-structured parsing (`_parse_openai_json_output_to_fields`, lines 456-488) -/

/-- The Python exceptions observable from the strategy entry points. -/
inductive PyErr where
  | nameError : String → PyErr
  | valueError : String → PyErr
  | jsonDecodeError : String → PyErr
deriving DecidableEq

/-- One field of the JSON parse loop: the field's own transform applied to
the object's value under the field's display name, else an explicit None
(`parsed_fields[output_name] = None`). -/
def jsonFieldValue (json_output : List (String × Value)) (f : FieldDesc) : Value :=
  match dlookup json_output f.name with
  | some v => f.transform_value v
  | none => Value.vnone

/-- `_parse_openai_json_output_to_fields`, parameterised by the Python
stdlib `json.loads` (external to this repository): a decode failure is
re-raised as the JSONDecodeError; a parsed object is folded into a dict
with one entry per declared output field (output variable names are dict
keys, hence unique, so the loop's assignments append in order). -/
def parse_openai_json_output_to_fields
    (loads : String → Except String (List (String × Value)))
    (sig : Signature) (output : String) : Except PyErr (List (String × Value)) :=
  match loads output with
  | Except.error e => Except.error (PyErr.jsonDecodeError e)
  | Except.ok json_output =>
      Except.ok (sig.output_variables.map (fun p => (p.1, jsonFieldValue json_output p.2)))

theorem dlookup_keyed_map {β : Type} (vars : List (String × FieldDesc))
    (g : FieldDesc → β) (hk : (vars.map Prod.fst).Nodup) (n : String) (f : FieldDesc)
    (hmem : (n, f) ∈ vars) :
    dlookup (vars.map (fun p => (p.1, g p.2))) n = some (g f) := by
  induction vars with
  | nil => cases hmem
  | cons p rest ih =>
      obtain ⟨n', f'⟩ := p
      rcases List.mem_cons.mp hmem with hh | ht
      · obtain ⟨h1, h2⟩ := Prod.mk.inj hh
        subst h1
        subst h2
        simp [dlookup]
      · have hne : ¬ (n' = n) := by
          intro he
          subst he
          exact (List.nodup_cons.mp hk).1 (by simpa using List.mem_map_of_mem Prod.fst ht)
        simp only [List.map_cons]
        rw [dlookup, if_neg (by simpa using hne)]
        exact ih (List.nodup_cons.mp hk).2 ht

/-- C3: whenever `json.loads` yields an object, JSON-structured parsing
returns a mapping whose keys are exactly the declared output field names in
order; a field whose display name is a key of the object maps to its own
transform of that value, and a field whose display name is absent maps to
an explicit None. -/
theorem parse_json_object_fields (loads : String → Except String (List (String × Value)))
    (sig : Signature) (output : String) (obj : List (String × Value))
    (hload : loads output = Except.ok obj)
    (hk : (sig.output_variables.map Prod.fst).Nodup) :
    ∃ r, parse_openai_json_output_to_fields loads sig output = Except.ok r ∧
      r.map Prod.fst = sig.output_variables.map Prod.fst ∧
      ∀ n f, (n, f) ∈ sig.output_variables →
        dlookup r n = some (jsonFieldValue obj f) := by
  refine ⟨sig.output_variables.map (fun p => (p.1, jsonFieldValue obj p.2)), ?_, ?_, ?_⟩
  · rw [parse_openai_json_output_to_fields, hload]
  · simp [List.map_map, Function.comp]
  · intro n f hmem
    exact dlookup_keyed_map sig.output_variables (jsonFieldValue obj) hk n f hmem

/-- C4: whenever `json.loads` fails, JSON-structured parsing raises the
JSONDecodeError to the caller and no mapping, partial or otherwise, is
returned. -/
theorem parse_json_malformed (loads : String → Except String (List (String × Value)))
    (sig : Signature) (output : String) (e : String)
    (hload : loads output = Except.error e) :
    parse_openai_json_output_to_fields loads sig output =
      Except.error (PyErr.jsonDecodeError e) := by
  rw [parse_openai_json_output_to_fields, hload]

/-- A `json.loads` stand-in that parses exactly the object of the spec's
JSON round trip. -/
def loadsA : String → Except String (List (String × Value)) :=
  fun s => if s = "\x7b\"a\": \"1\"\x7d" then Except.ok [("a", Value.vstr "1")]
           else Except.error "Expecting value: line 1 column 1 (char 0)"

/-- The Signature of the spec's JSON round trip: output fields `a`, `b`. -/
def sigAB : Signature :=
  { input_variables := [],
    output_variables := [("a", plainFd "a"), ("b", plainFd "b")],
    hint_variables := [] }

/-- Witness for `parse_json_object_fields`: parsing `{"a": "1"}` against
output fields `a`, `b` yields the transform of `"1"` for `a` (the identity
for this descriptor) and an explicit None for `b`. -/
theorem parse_json_object_fields_witness :
    ∃ r, parse_openai_json_output_to_fields loadsA sigAB "\x7b\"a\": \"1\"\x7d" = Except.ok r ∧
      r.map Prod.fst = ["a", "b"] ∧
      dlookup r "a" = some (Value.vstr "1") ∧
      dlookup r "b" = some Value.vnone := by
  obtain ⟨r, h1, h2, h3⟩ := parse_json_object_fields loadsA sigAB "\x7b\"a\": \"1\"\x7d"
    [("a", Value.vstr "1")] rfl (by decide)
  refine ⟨r, h1, by rw [h2]; decide, ?_, ?_⟩
  · have := h3 "a" (plainFd "a") (List.Mem.head _)
    rw [this]
    decide
  · have := h3 "b" (plainFd "b") (List.Mem.tail _ (List.Mem.head _))
    rw [this]
    decide

/-- Witness for `parse_json_malformed`: a raw output `json.loads` rejects
propagates the decode error. -/
theorem parse_json_malformed_witness :
    parse_openai_json_output_to_fields loadsA sigAB "not json" =
      Except.error (PyErr.jsonDecodeError "Expecting value: line 1 column 1 (char 0)") :=
  parse_json_malformed loadsA sigAB "not json"
    "Expecting value: line 1 column 1 (char 0)" rfl

/-! ### The three renderers (`_format_openai_json_prompt` lines 198-261,
`_format_openai_prompt` lines 263-325, `_format_anthropic_prompt` lines
327-396).  Each is written as `pre ++ trained-segment ++ post`, mirroring
the source's straight-line sequence of appends around its single
conditional trained-examples block. -/

/-- Concatenation of the strings a `for` loop appends. -/
def strJoin : List String → String
  | [] => ""
  | s :: rest => s ++ strJoin rest

/-- A JSON string literal (stdlib `json.dumps` escaping of exotic
characters is not modelled; the claims do not depend on it). -/
def jstr (s : String) : String := "\"" ++ s ++ "\""

/-- Scalar JSON rendering of a `Value`. -/
def jsonValueStr : Value → String
  | Value.vnone => "null"
  | Value.vstr s => jstr s
  | Value.vint n => toString n
  | Value.vbool b => if b then "true" else "false"

/-- `json.dumps(<dict>, indent=2)` layout for an object whose entry values
are already rendered, at the given indentation of the closing brace. -/
def jsonObjBody (ind : String) (entries : List (String × String)) : String :=
  match entries with
  | [] => "\x7b\x7d"
  | _ => "\x7b\n"
      ++ String.intercalate ",\n" (entries.map (fun p => ind ++ "  " ++ jstr p.1 ++ ": " ++ p.2))
      ++ "\n" ++ ind ++ "\x7d"

/-- `json.dumps` of a flat dict of values with `indent=2`. -/
def jsonDumpsFlat (d : List (String × Value)) : String :=
  jsonObjBody "" (d.map (fun p => (p.1, jsonValueStr p.2)))

/-- `json.dumps` of the two-level `{"input": .., "output": ..}` example
dict with `indent=2`. -/
def jsonDumpsNested (d : List (String × List (String × Value))) : String :=
  jsonObjBody "" (d.map (fun p =>
    (p.1, jsonObjBody "  " (p.2.map (fun q => (q.1, jsonValueStr q.2))))))

/-- `{field.name: field.desc}` dicts built per field in declaration order. -/
def fieldsDescDict (vars : List (String × FieldDesc)) : List (String × Value) :=
  vars.foldl (fun acc p => dictInsert acc p.2.name (Value.vstr p.2.desc)) []

/-- The `example_dict["input"]` build: each input field's
`format_prompt_value_json` of the example's value, merged with `update`. -/
def jsonInputDict (sig : Signature) (values : List (String × Value)) : List (String × Value) :=
  sig.input_variables.foldl
    (fun acc p => dictUpdate acc (p.2.format_prompt_value_json (dget values p.1) "openai_json")) []

/-- The `example_dict["output"]` build: dict-shaped outputs contribute the
value under each output field's key, scalar outputs are passed to every
output field identically. -/
def jsonOutputDict (sig : Signature) (exOut : ExOut) : List (String × Value) :=
  sig.output_variables.foldl
    (fun acc p =>
      match exOut with
      | ExOut.table d => dictUpdate acc (p.2.format_prompt_value_json (dget d p.1) "openai_json")
      | ExOut.scalar v => dictUpdate acc (p.2.format_prompt_value_json v "openai_json")) []

/-- One dumped example object of the JSON renderer (trailing newline
included, as in `prompt += json.dumps(example_dict, indent=2) + "\n"`). -/
def jsonExampleBlock (sig : Signature) (ex : ExamplePair) : String :=
  jsonDumpsNested [("input", jsonInputDict sig ex.1), ("output", jsonOutputDict sig ex.2)] ++ "\n"

/-- Everything `_format_openai_json_prompt` appends before its trained
block: header, multi-output instruction, hints, field-description blocks
and the inline examples block. -/
def jsonPre (sig : Signature) (examples : List ExamplePair) : String :=
  "Follow the following format. Answer with a JSON object. Attributes that have values should not be changed or repeated."
  ++ (if 1 < sig.output_variables.length then
        " Provide answers for "
        ++ String.intercalate ", " (sig.output_variables.map (fun p => p.2.name)) ++ ".\n"
      else "")
  ++ (if sig.hint_variables.isEmpty then "" else
        "\n" ++ strJoin (sig.hint_variables.map (fun p => p.2.format_prompt_description "openai" ++ "\n")))
  ++ "\nInput Fields:\n" ++ jsonDumpsFlat (fieldsDescDict sig.input_variables) ++ "\n"
  ++ "\nOutput Fields:\n" ++ jsonDumpsFlat (fieldsDescDict sig.output_variables) ++ "\n"
  ++ (if examples.isEmpty then "" else
        "\nExamples:\n" ++ strJoin (examples.map (jsonExampleBlock sig)))

/-- The trained block of `_format_openai_json_prompt` (lines 236-247). -/
def jsonTrainedSeg (sig : Signature) (t : TrainedState) : String :=
  "\nTrained Examples:\n" ++ strJoin (t.examples.map (jsonExampleBlock sig))

/-- Everything `_format_openai_json_prompt` appends after its trained
block: the actual input values and the output placeholders. -/
def jsonPost (sig : Signature) (kwargs : List (String × Value)) : String :=
  "\nInput:\n" ++ jsonDumpsFlat (jsonInputDict sig kwargs) ++ "\n"
  ++ "\nOutput:\n"
  ++ jsonDumpsFlat (sig.output_variables.foldl
       (fun acc p => dictUpdate acc (p.2.format_prompt_json "openai_json")) []) ++ "\n"

/-- The truthiness of `trained_state and trained_state.examples and
use_training` guarding every trained block. -/
def trainedCond (ts : Option TrainedState) (us : Bool) : Bool :=
  match ts with
  | none => false
  | some t => !t.examples.isEmpty && us

/-- `_format_openai_json_prompt`. -/
def format_openai_json_prompt (sig : Signature) (trained_state : Option TrainedState)
    (use_training : Bool) (examples : List ExamplePair) (kwargs : List (String × Value)) : String :=
  jsonPre sig examples
  ++ (match trained_state with
      | some t => if !t.examples.isEmpty && use_training then jsonTrainedSeg sig t else ""
      | none => "")
  ++ jsonPost sig kwargs

/-- One `---`-separated example of the plain-text renderer (lines 292-301):
input value lines then output value lines, scalar outputs rendered against
every output field identically. -/
def openaiExampleBlock (sig : Signature) (ex : ExamplePair) : String :=
  "\n---\n\n"
  ++ strJoin (sig.input_variables.map (fun p => p.2.format_prompt_value (dget ex.1 p.1) "openai" ++ "\n"))
  ++ strJoin (sig.output_variables.map (fun p =>
       (match ex.2 with
        | ExOut.table d => p.2.format_prompt_value (dget d p.1) "openai"
        | ExOut.scalar v => p.2.format_prompt_value v "openai") ++ "\n"))

/-- Everything `_format_openai_prompt` appends before its trained block. -/
def openaiPre (sig : Signature) (examples : List ExamplePair) : String :=
  "Follow the following format. Attributes that have values should not be changed or repeated. "
  ++ (if 1 < sig.output_variables.length then
        "Provide answers for "
        ++ String.intercalate ", " (sig.output_variables.map (fun p => p.2.name)) ++ "\n"
      else "")
  ++ (if sig.hint_variables.isEmpty then "" else
        "\n" ++ strJoin (sig.hint_variables.map (fun p => p.2.format_prompt_description "openai" ++ "\n")))
  ++ "\n\n"
  ++ strJoin (sig.input_variables.map (fun p => p.2.format_prompt_description "openai" ++ "\n"))
  ++ strJoin (sig.output_variables.map (fun p => p.2.format_prompt_description "openai" ++ "\n"))
  ++ strJoin (examples.map (openaiExampleBlock sig))

/-- The trained block of `_format_openai_prompt` (lines 303-314). -/
def openaiTrainedSeg (sig : Signature) (t : TrainedState) : String :=
  strJoin (t.examples.map (openaiExampleBlock sig))

/-- Everything `_format_openai_prompt` appends after its trained block:
the closing separator, the caller's input values, and the bare output
markers. -/
def openaiPost (sig : Signature) (kwargs : List (String × Value)) : String :=
  "\n---\n\n"
  ++ strJoin (sig.input_variables.map (fun p => p.2.format_prompt_value (dget kwargs p.1) "openai" ++ "\n"))
  ++ strJoin (sig.output_variables.map (fun p => p.2.format_prompt "openai" ++ "\n"))

/-- `_format_openai_prompt`. -/
def format_openai_prompt (sig : Signature) (trained_state : Option TrainedState)
    (use_training : Bool) (examples : List ExamplePair) (kwargs : List (String × Value)) : String :=
  openaiPre sig examples
  ++ (match trained_state with
      | some t => if !t.examples.isEmpty && use_training then openaiTrainedSeg sig t else ""
      | none => "")
  ++ openaiPost sig kwargs

/-- A role-tagged message of the tagged-markup renderer. -/
inductive Msg where
  | system : String → Msg
  | human : String → Msg
deriving DecidableEq

/-- The fixed prompt-caching system message (source lines 331-340). -/
def anthropicSystemText : String :=
  "[\n            \x7b\n                type: \"text\",\n                text: \"Consider the following cities to be classified as capital of states: the capital of Brazil is São Paulo, the capital of Turkey is Istanbul, the capital of Australia is Sydney.\",\n            \n                // Tell Anthropic to cache this block\n                cache_control: \x7b type: \"ephemeral\" \x7d,\n            \x7d,\n            ]"

/-- One `<example>` message of the tagged-markup renderer (lines 362-372). -/
def anthropicExampleMsg (sig : Signature) (ex : ExamplePair) : Msg :=
  Msg.human ("<example>\n<input>\n"
    ++ String.intercalate "\n"
         (sig.input_variables.map (fun p => p.2.format_prompt_value (dget ex.1 p.1) "anthropic"))
    ++ "\n</input>\n<output>\n"
    ++ (match ex.2 with
        | ExOut.table d => String.intercalate "\n"
            (sig.output_variables.map (fun p => p.2.format_prompt_value (dget d p.1) "anthropic"))
        | ExOut.scalar v => String.intercalate "\n"
            (sig.output_variables.map (fun p => p.2.format_prompt_value v "anthropic")))
    ++ "\n</output>\n</example>")

/-- The messages `_format_anthropic_prompt` emits before its trained
block: system preamble, output-fields instruction, optional hints, and the
field-descriptions message, then one message per inline example. -/
def anthropicPre (sig : Signature) (examples : List ExamplePair) : List Msg :=
  [Msg.system anthropicSystemText,
   Msg.human ("Provide answers for output fields "
     ++ String.intercalate ", " (sig.output_variables.map (fun p => p.2.name))
     ++ ". Follow the XML output format, only show the output fields do not repeat the hints, input fields or examples.")]
  ++ (if sig.hint_variables.isEmpty then [] else
       [Msg.human ("Hints:\n" ++ String.intercalate "\n"
          (sig.hint_variables.map (fun p => p.2.format_prompt_description "anthropic")))])
  ++ [Msg.human ("<input_fields>\n"
       ++ String.intercalate "\n"
            (sig.input_variables.map (fun p => p.2.format_prompt_description "anthropic"))
       ++ "\n</input_fields>\n<output_fields>\n"
       ++ String.intercalate "\n"
            (sig.output_variables.map (fun p => p.2.format_prompt_description "anthropic"))
       ++ "\n</output_fields>")]
  ++ examples.map (anthropicExampleMsg sig)

/-- The trained messages of `_format_anthropic_prompt` (lines 375-385). -/
def anthropicTrainedSeg (sig : Signature) (t : TrainedState) : List Msg :=
  t.examples.map (anthropicExampleMsg sig)

/-- The messages `_format_anthropic_prompt` emits after its trained block:
the caller's input values and the closing response-format instruction. -/
def anthropicPost (sig : Signature) (kwargs : List (String × Value)) : List Msg :=
  [Msg.human ("<input>\n"
     ++ String.intercalate "\n"
          (sig.input_variables.map (fun p => p.2.format_prompt_value (dget kwargs p.1) "anthropic"))
     ++ "\n</input>"),
   Msg.human "Respond with the output in the following format:\n<output>\n[Your response here]\n</output>"]

/-- `_format_anthropic_prompt`: returns the ordered message sequence. -/
def format_anthropic_prompt (sig : Signature) (trained_state : Option TrainedState)
    (use_training : Bool) (examples : List ExamplePair) (kwargs : List (String × Value)) : List Msg :=
  anthropicPre sig examples
  ++ (match trained_state with
      | some t => if !t.examples.isEmpty && use_training then anthropicTrainedSeg sig t else []
      | none => [])
  ++ anthropicPost sig kwargs

theorem openaiTrainedSeg_pos (sig : Signature) (t : TrainedState) (h : t.examples ≠ []) :
    0 < (openaiTrainedSeg sig t).length := by
  obtain ⟨e, es, he⟩ := List.exists_cons_of_ne_nil h
  rw [openaiTrainedSeg, he]
  simp only [List.map_cons, strJoin, String.length_append]
  have h1 : 0 < (openaiExampleBlock sig e).length := by
    rw [openaiExampleBlock]
    simp only [String.length_append]
    have : 0 < ("\n---\n\n" : String).length := by decide
    omega
  omega

theorem jsonTrainedSeg_pos (sig : Signature) (t : TrainedState) :
    0 < (jsonTrainedSeg sig t).length := by
  rw [jsonTrainedSeg]
  simp only [String.length_append]
  have : 0 < ("\nTrained Examples:\n" : String).length := by decide
  omega

/-- C7: each of the three renderers includes its trained-examples segment
exactly when `use_training` is truthy and a trained state with a non-empty
example list is supplied; when that condition fails the rendered prompt is
identical to a render with no trained state at all, whatever the inline
examples are, and when it holds the output is the untrained output with the
non-empty trained segment spliced in (hence differs from it). -/
theorem trained_examples_gating (sig : Signature) (ts : Option TrainedState) (us : Bool)
    (examples : List ExamplePair) (kwargs : List (String × Value)) :
    (trainedCond ts us = false →
       format_openai_prompt sig ts us examples kwargs =
         format_openai_prompt sig none us examples kwargs ∧
       format_openai_json_prompt sig ts us examples kwargs =
         format_openai_json_prompt sig none us examples kwargs ∧
       format_anthropic_prompt sig ts us examples kwargs =
         format_anthropic_prompt sig none us examples kwargs) ∧
    (∀ t, ts = some t → trainedCond ts us = true →
       (format_openai_prompt sig ts us examples kwargs =
          openaiPre sig examples ++ openaiTrainedSeg sig t ++ openaiPost sig kwargs ∧
        format_openai_prompt sig ts us examples kwargs ≠
          format_openai_prompt sig none us examples kwargs) ∧
       (format_openai_json_prompt sig ts us examples kwargs =
          jsonPre sig examples ++ jsonTrainedSeg sig t ++ jsonPost sig kwargs ∧
        format_openai_json_prompt sig ts us examples kwargs ≠
          format_openai_json_prompt sig none us examples kwargs) ∧
       (format_anthropic_prompt sig ts us examples kwargs =
          anthropicPre sig examples ++ anthropicTrainedSeg sig t ++ anthropicPost sig kwargs ∧
        format_anthropic_prompt sig ts us examples kwargs ≠
          format_anthropic_prompt sig none us examples kwargs)) := by
  constructor
  · intro hcond
    cases ts with
    | none => exact ⟨rfl, rfl, rfl⟩
    | some t =>
        have hc : (!t.examples.isEmpty && us) = false := hcond
        refine ⟨?_, ?_, ?_⟩
        · simp [format_openai_prompt, hc]
        · simp [format_openai_json_prompt, hc]
        · simp [format_anthropic_prompt, hc]
  · intro t hts hcond
    subst hts
    have hc : (!t.examples.isEmpty && us) = true := hcond
    have hne : t.examples ≠ [] := by
      intro h
      rw [h] at hc
      simp at hc
    have e1 : format_openai_prompt sig (some t) us examples kwargs =
        openaiPre sig examples ++ openaiTrainedSeg sig t ++ openaiPost sig kwargs := by
      simp [format_openai_prompt, hc]
    have e1' : format_openai_prompt sig none us examples kwargs =
        openaiPre sig examples ++ "" ++ openaiPost sig kwargs := rfl
    have e2 : format_openai_json_prompt sig (some t) us examples kwargs =
        jsonPre sig examples ++ jsonTrainedSeg sig t ++ jsonPost sig kwargs := by
      simp [format_openai_json_prompt, hc]
    have e2' : format_openai_json_prompt sig none us examples kwargs =
        jsonPre sig examples ++ "" ++ jsonPost sig kwargs := rfl
    have e3 : format_anthropic_prompt sig (some t) us examples kwargs =
        anthropicPre sig examples ++ anthropicTrainedSeg sig t ++ anthropicPost sig kwargs := by
      simp [format_anthropic_prompt, hc]
    have e3' : format_anthropic_prompt sig none us examples kwargs =
        anthropicPre sig examples ++ [] ++ anthropicPost sig kwargs := rfl
    refine ⟨⟨e1, ?_⟩, ⟨e2, ?_⟩, ⟨e3, ?_⟩⟩
    · intro heq
      rw [e1, e1'] at heq
      have hlen := congrArg String.length heq
      simp only [String.length_append, String.length_empty] at hlen
      have hpos := openaiTrainedSeg_pos sig t hne
      omega
    · intro heq
      rw [e2, e2'] at heq
      have hlen := congrArg String.length heq
      simp only [String.length_append, String.length_empty] at hlen
      have hpos := jsonTrainedSeg_pos sig t
      omega
    · intro heq
      rw [e3, e3'] at heq
      have hlen := congrArg List.length heq
      simp only [List.length_append, anthropicTrainedSeg, List.length_map, List.length_nil] at hlen
      have hpos := List.length_pos.mpr hne
      omega

/-- A concrete trained state with one learned example. -/
def tsW : TrainedState := { examples := [([], ExOut.scalar (Value.vstr "y"))] }

/-- Witness for `trained_examples_gating`: with `use_training = true` the
trained segment is spliced in; with `use_training = false` the same trained
state renders identically to no trained state. -/
theorem trained_examples_gating_witness :
    format_openai_prompt sigAns (some tsW) true [] [] =
      openaiPre sigAns [] ++ openaiTrainedSeg sigAns tsW ++ openaiPost sigAns [] ∧
    format_openai_prompt sigAns (some tsW) false [] [] =
      format_openai_prompt sigAns none false [] [] := by
  constructor
  · exact (((trained_examples_gating sigAns (some tsW) true [] []).2 tsW rfl (by decide)).1).1
  · exact ((trained_examples_gating sigAns (some tsW) false [] []).1 (by decide)).1

/-! ### The render and parse dispatchers (`PromptStrategy.format_prompt`
lines 124-151, `PromptStrategy.parse_output_to_fields` lines 153-163) -/

/-- A rendered prompt: one string (plain / JSON conventions) or the message
sequence (tagged-markup convention). -/
inductive Formatted where
  | text : String → Formatted
  | msgs : List Msg → Formatted
deriving DecidableEq

/-- The names bound in `format_prompt`'s local scope before line 133 runs:
its parameters and the four `kwargs.pop` targets. -/
def formatPromptLocals : List String :=
  ["self", "kwargs", "llm_type", "trained_state", "use_training", "examples"]

/-- The names bound at module scope in `prompt_strategies.py` (its imports
and top-level definitions), where Python next looks for a name that is not
a local; none of the builtins is named `output` either. -/
def moduleScopeNames : List String :=
  ["BasePromptTemplate", "json", "re", "FewShotPromptTemplate", "SystemMessage",
   "HumanMessage", "RunnableSerializable", "StrOutputParser", "BaseModel", "Field",
   "create_model", "root_validator", "Extra", "validator", "BaseLLM", "Any", "Dict",
   "List", "Type", "Optional", "Callable", "Tuple", "Union", "uuid", "ABC",
   "abstractmethod", "Document", "Input", "Output", "RunnableConfig", "logging",
   "InputField", "OutputField", "HintField", "logger", "PromptSignature",
   "PromptStrategy", "DefaultPromptStrategy"]

/-- Python name resolution as `format_prompt` sees it: a name is defined if
it is a local or a module-scope name; reading an undefined name raises
`NameError`. -/
def nameDefined (localNames : List String) (n : String) : Bool :=
  localNames.contains n || moduleScopeNames.contains n

/-- `PromptStrategy.format_prompt`: line 133 evaluates
`hasattr(output, 'content')`, and `output` is bound nowhere in scope, so a
`NameError` is raised (then logged and re-raised by the `except` clause)
before input validation or any dispatch; the never-reached remainder embeds
the `llm_type` dispatch of lines 135-146. -/
def format_prompt (sig : Signature) (llm_type : Option String)
    (trained_state : Option TrainedState) (use_training : Bool)
    (examples : List ExamplePair) (kwargs : List (String × Value)) : Except PyErr Formatted :=
  if nameDefined formatPromptLocals "output" then
    match validate_input sig kwargs with
    | Except.error e => Except.error (PyErr.valueError e)
    | Except.ok validated =>
        match llm_type with
        | some "openai" =>
            Except.ok (Formatted.text
              (format_openai_prompt sig trained_state use_training examples validated))
        | some "openai_json" =>
            Except.ok (Formatted.text
              (format_openai_json_prompt sig trained_state use_training examples validated))
        | some "anthropic" =>
            Except.ok (Formatted.msgs
              (format_anthropic_prompt sig trained_state use_training examples validated))
        | some "fake_anthropic" =>
            Except.ok (Formatted.msgs
              (format_anthropic_prompt sig trained_state use_training examples validated))
        | some other => Except.error (PyErr.valueError ("Unsupported LLM type: " ++ other))
        | none => Except.error (PyErr.valueError "Unsupported LLM type: None")
  else
    Except.error (PyErr.nameError "output")

/-- Parsed fields as the dispatcher returns them (the line-based parsers
produce string values). -/
def stringDict (d : List (String × String)) : List (String × Value) :=
  d.map (fun p => (p.1, Value.vstr p.2))

/-- `PromptStrategy.parse_output_to_fields`: the four recognized parse
conventions (`test` reusing the plain-text parser) and the `ValueError`
fallthrough. -/
def parse_output_to_fields (loads : String → Except String (List (String × Value)))
    (sig : Signature) (output : String) (llm_type : String) :
    Except PyErr (List (String × Value)) :=
  if llm_type == "openai_json" then
    parse_openai_json_output_to_fields loads sig output
  else if llm_type == "openai" then
    Except.ok (stringDict (parse_openai_output_to_fields sig output))
  else if llm_type == "anthropic" || llm_type == "fake_anthropic" then
    Except.ok (stringDict (parse_anthropic_output_to_fields sig (RawOutput.plain output)))
  else if llm_type == "test" then
    Except.ok (stringDict (parse_openai_output_to_fields sig output))
  else
    Except.error (PyErr.valueError ("Unsupported LLM type: " ++ llm_type))

/-- C1: every invocation of `format_prompt`, with any convention selector
and any input values, raises the `NameError` on the undefined `output`
before any format-specific renderer is dispatched, so render never returns
a prompt. -/
theorem format_prompt_always_nameerror (sig : Signature) (llm_type : Option String)
    (trained_state : Option TrainedState) (use_training : Bool)
    (examples : List ExamplePair) (kwargs : List (String × Value)) :
    format_prompt sig llm_type trained_state use_training examples kwargs =
      Except.error (PyErr.nameError "output") := by
  rw [format_prompt, if_neg]
  decide

/-- C2 evidence: at a concrete Signature, rendering fails with the
`NameError` — not the `Unsupported LLM type` ValueError — for an
unrecognized convention, and indeed for a recognized one too, while the
parse dispatcher does raise the ValueError for an unrecognized convention
and treats `test` exactly like plain-text parsing. -/
theorem format_dispatch_bug :
    format_prompt sigAns (some "plain-text") none true [] [] =
      Except.error (PyErr.nameError "output") ∧
    format_prompt sigAns (some "openai") none true [] [] =
      Except.error (PyErr.nameError "output") ∧
    parse_output_to_fields loadsA sigAns "out" "plain-text" =
      Except.error (PyErr.valueError "Unsupported LLM type: plain-text") ∧
    parse_output_to_fields loadsA sigAns "out" "test" =
      Except.ok (stringDict (parse_openai_output_to_fields sigAns "out")) :=
  ⟨rfl, rfl, rfl, rfl⟩
